import Mathlib

/-!
Verification model of `net.py`: a subnet ping sweep whose results are
mirrored into a Google-Sheets tabular sink and a Notion structured store.
Python functions are shallowly embedded as pure Lean functions; remote API
calls become entries of an explicit call trace, and remote state (the
fetched page map, current sheet contents) is passed in explicitly.
-/

/-- Model of `jst_iso_from_str` (lines 146-149):
`'YYYY-MM-DD HH:MM:SS' -> 'YYYY-MM-DDTHH:MM:SS+09:00'`.  On the well-formed
timestamps this program produces, `strptime` followed by
`isoformat(timespec="seconds")` replaces the single blank with `T` and
appends the fixed JST offset.  The model is total where the source raises
`ValueError` on malformed input (never reached in a run). -/
def jst_iso_from_str (s : String) : String :=
  ⟨s.data.map (fun c => if c = ' ' then 'T' else c)⟩ ++ "+09:00"

/-- `status_name = "接続" if timestamp else "接続不可"` (line 230): the
status derived from a probe (`"接続"` is the spec's "connected", `"接続不可"`
its "unreachable"). -/
def status_of (timestamp : String) : String :=
  if timestamp ≠ "" then "接続" else "接続不可"

/-- Python truthiness of an optional string (`None` and `""` are falsy). -/
def optTruthy : Option String → Bool
  | some s => s != ""
  | none => false

/-- The ambient Notion configuration read at module load (lines 24-25 and
139-140): the `has_prop(MAIN_DB_PROPS, "Timestamp", ...)` checks, the
`NOTION_LOGS_DB_ID` environment value, and the `has_prop(LOG_DB_PROPS, ...)`
checks consulted by `create_log_record`. -/
structure NotionConfig where
  tsIsDate : Bool
  tsIsText : Bool
  logsDbId : Option String
  logHasTitle : Bool
  logHasStatus : Bool
  logTsIsDate : Bool
  logTsIsText : Bool
  logHasNetwork : Bool
deriving DecidableEq

/-- One entry of the map built by `fetch_pages_map` (lines 151-181):
`ip -> {'id': page_id, 'ts': stored timestamp string, 'status': name}`. -/
structure PageRec where
  id : String
  ts : String
  status : String
deriving DecidableEq

/-- The shape of the `Timestamp` property inside a write payload:
`{"date": {"start": s}}`, `{"date": None}`, `{"rich_text": [{"text": s}]}`,
`{"rich_text": []}`, or the key omitted altogether. -/
inductive TsProp where
  | dateSome (s : String)
  | dateNone
  | textSome (s : String)
  | textEmpty
  | absent
deriving DecidableEq

/-- One attempted Notion API call of a reconciliation run: a page create
(POST /v1/pages against the main DB), a page property patch, or a log-DB
row create issued by `create_log_record`. -/
inductive NotionCall where
  | create (ip status : String) (ts : TsProp)
  | update (pageId status : String) (ts : TsProp)
  | log (ip : String) (status : Option String) (ts : TsProp) (network : Option String)
deriving DecidableEq

def isCreateCall : NotionCall → Bool
  | NotionCall.create .. => true
  | _ => false

def isUpdateCall : NotionCall → Bool
  | NotionCall.update .. => true
  | _ => false

def isLogCall : NotionCall → Bool
  | NotionCall.log .. => true
  | _ => false

/-- Model of `create_log_record` (lines 184-216): the log-DB call it
attempts.  Nothing is attempted when `NOTION_LOGS_DB_ID` is unset/empty or
the log DB lacks a title property; optional properties are included only
when the schema supports them.  The POST itself is wrapped in
`try/except: pass`, so the attempt does not depend on its outcome. -/
def create_log_record (cfg : NotionConfig) (ip timestamp status_name : String)
    (netPfx : Option String) : List NotionCall :=
  if optTruthy cfg.logsDbId = false then []
  else if cfg.logHasTitle = false then []
  else
    [NotionCall.log ip
      (if cfg.logHasStatus then some status_name else none)
      (if timestamp ≠ "" then
         if cfg.logTsIsDate then TsProp.dateSome (jst_iso_from_str timestamp)
         else if cfg.logTsIsText then TsProp.textSome timestamp
         else TsProp.absent
       else TsProp.absent)
      (if optTruthy netPfx && cfg.logHasNetwork then netPfx else none)]

/-- One iteration of the `for ip, timestamp in data` loop of `upsert_notion`
(lines 229-294): the calls attempted for one probed address, given the
pre-fetched `page_map` snapshot.  `pm.get("ts") or ""` and
`timestamp or ""` are the identity on the strings stored in the model, and
are embedded as such. -/
def upsert_step (cfg : NotionConfig) (pageMap : String → Option PageRec)
    (netPfx : Option String) (p : String × String) : List NotionCall :=
  let ip := p.1
  let timestamp := p.2
  let status_name := status_of timestamp
  match pageMap ip with
  | none =>
    let tsProp :=
      if timestamp ≠ "" then
        if cfg.tsIsDate then TsProp.dateSome (jst_iso_from_str timestamp)
        else if cfg.tsIsText then TsProp.textSome timestamp
        else TsProp.absent
      else
        if cfg.tsIsDate then TsProp.dateNone
        else if cfg.tsIsText then TsProp.textEmpty
        else TsProp.absent
    NotionCall.create ip status_name tsProp ::
      create_log_record cfg ip timestamp status_name netPfx
  | some pm =>
    let want_ts_str :=
      if timestamp ≠ "" then
        if cfg.tsIsDate then jst_iso_from_str timestamp else timestamp
      else ""
    let need_update :=
      (if cfg.tsIsDate then pm.ts != want_ts_str else pm.ts != timestamp)
        || (pm.status != status_name)
    (if need_update then
       let tsProp :=
         if cfg.tsIsDate then
           if timestamp ≠ "" then TsProp.dateSome want_ts_str else TsProp.dateNone
         else if cfg.tsIsText then
           if timestamp ≠ "" then TsProp.textSome timestamp else TsProp.textEmpty
         else TsProp.absent
       [NotionCall.update pm.id status_name tsProp]
     else []) ++ create_log_record cfg ip timestamp status_name netPfx

/-- Model of `upsert_notion` (lines 219-294): the trace of Notion calls it
attempts.  `fetch` is the outcome of the `fetch_pages_map` call; a
`RequestException` there is caught (lines 220-224) and the function returns
having made no further call. -/
def upsert_notion (cfg : NotionConfig) (data : List (String × String))
    (fetch : Except Unit (String → Option PageRec)) (netPfx : Option String) :
    List NotionCall :=
  match fetch with
  | Except.error _ => []
  | Except.ok pageMap => data.flatMap (upsert_step cfg pageMap netPfx)

/-- The `Timestamp` string `fetch_pages_map` (lines 167-172) reads back from
a page whose `Timestamp` property was last written by this program from
probe value `ts` under configuration `cfg`: the ISO conversion for a date
property, the raw string for a rich-text property, and `""` when the write
carried no timestamp (n.b. on an actual empty `rich_text` list line 172
indexes `[0]` into `[]`; the model uses the empty-string reading that the
surrounding code intends). -/
def stored_ts_after_write (cfg : NotionConfig) (ts : String) : String :=
  if cfg.tsIsDate then (if ts ≠ "" then jst_iso_from_str ts else "")
  else if cfg.tsIsText then ts
  else ""

/-- The outcome of the `k`-th remote call in a run, under transport-failure
oracle `oracle` (a `RequestException` at the call sites of lines 251-254,
282-290 and 213-216). -/
def call_outcome (oracle : Nat → Bool) (k : Nat) : Except Unit Unit :=
  if oracle k then Except.error () else Except.ok ()

/-- `try: <call> except requests.exceptions.RequestException: pass`: the
exception is swallowed and control continues normally. -/
def try_pass (r : Except Unit Unit) : Except Unit Unit :=
  match r with
  | Except.error _ => Except.ok ()
  | Except.ok _ => Except.ok ()

/-- Issue a block of calls in order, threading the call counter; each call
site is wrapped in `try_pass`, and an uncaught (hence propagating) error
would abort the whole block. -/
def run_calls (oracle : Nat → Bool) : Nat → List NotionCall →
    Except Unit (Nat × List NotionCall)
  | k, [] => Except.ok (k, [])
  | k, c :: cs =>
    match try_pass (call_outcome oracle k) with
    | Except.error e => Except.error e
    | Except.ok _ =>
      match run_calls oracle (k + 1) cs with
      | Except.error e => Except.error e
      | Except.ok kt => Except.ok (kt.1, c :: kt.2)

/-- The `for ip, timestamp in data` loop of `upsert_notion`, embedded in an
exception semantics: each address's attempted calls run through `run_calls`,
and an uncaught error there would abort the loop (remaining addresses
unprocessed). -/
def upsert_loop (cfg : NotionConfig) (oracle : Nat → Bool)
    (pageMap : String → Option PageRec) (netPfx : Option String) :
    Nat → List (String × String) → Except Unit (Nat × List NotionCall)
  | k, [] => Except.ok (k, [])
  | k, p :: rest =>
    match run_calls oracle k (upsert_step cfg pageMap netPfx p) with
    | Except.error e => Except.error e
    | Except.ok kt =>
      match upsert_loop cfg oracle pageMap netPfx kt.1 rest with
      | Except.error e => Except.error e
      | Except.ok kt' => Except.ok (kt'.1, kt.2 ++ kt'.2)

/-- `upsert_notion` under the exception semantics: the run either aborts on
an uncaught error or returns the trace of calls it attempted. -/
def upsert_notion_run (cfg : NotionConfig) (oracle : Nat → Bool)
    (data : List (String × String))
    (fetch : Except Unit (String → Option PageRec)) (netPfx : Option String) :
    Except Unit (List NotionCall) :=
  match fetch with
  | Except.error _ => Except.ok []
  | Except.ok pageMap =>
    match upsert_loop cfg oracle pageMap netPfx 0 data with
    | Except.error e => Except.error e
    | Except.ok kt => Except.ok kt.2

/-- The console output of an `upsert_notion` run.  The only `print` inside
`upsert_notion` is the fetch-failure message of line 223; the `except`
handlers around the per-record create (lines 253-254), patch (lines
289-290) and log POST (lines 215-216) are bare `pass`, so a per-record
transport failure — whatever the oracle says — produces no console output
at all. -/
def upsert_notion_run_console (_cfg : NotionConfig) (_oracle : Nat → Bool)
    (_data : List (String × String))
    (fetch : Except Unit (String → Option PageRec))
    (_netPfx : Option String) : List String :=
  match fetch with
  | Except.error _ => ["❌ Notion DB query 失敗"]
  | Except.ok _ => []

/-- `[f"{prefix}{i}" for i in range(1, 255)]` (line 118): the probed
addresses of one subnet sweep. -/
def ips_of (pfx : String) : List String :=
  (List.range' 1 254).map (fun i => pfx ++ toString i)

/-- The characters after the last `'.'` of a string, i.e. Python's
`s.split(".")[-1]` for the dotted address strings this program builds. -/
def last_dot_component (cs : List Char) : List Char :=
  cs.foldl (fun acc c => if c = '.' then [] else acc ++ [c]) []

def digit_val (c : Char) : Nat := c.toNat - 48

def parse_digits (cs : List Char) : Nat :=
  cs.foldl (fun acc c => acc * 10 + digit_val c) 0

/-- Model of the sort key `int(x[0].split(".")[-1])` (line 127) on the
digit-only trailing components this program generates (the value is a
nonnegative host octet, so `Nat` carries it). -/
def lastOctet (s : String) : Nat := parse_digits (last_dot_component s.data)

/-- One collected probe result `[ip, ts_now if ok else ""]` (line 126):
`probe` stands for `ping_ip` (the external ping subprocess, exit code 0 =
reachable), `ts_now` for the single run timestamp taken at line 119 before
any probe is issued. -/
def probe_entry (probe : String → Bool) (ts_now ip : String) : String × String :=
  (ip, if probe ip then ts_now else "")

def oct_key (r : String × String) : Nat := lastOctet r.1

def key_le (a b : String × String) : Bool := decide (oct_key a ≤ oct_key b)

/-- Model of `ping_subnet` (lines 117-128).  The thread pool is abstracted:
`order` is the sequence in which `as_completed` yields the probes, a
permutation of `ips_of pfx`; results are appended in completion order and
then sorted by trailing address octet. -/
def ping_subnet (probe : String → Bool) (ts_now : String)
    (order : List String) : List (String × String) :=
  (order.map (probe_entry probe ts_now)).mergeSort key_le

/-- One Google-Sheets API operation of a `write_to_sheets_with_backup`
run: worksheet creation, a ranged cell update, rightward column growth, the
main-table batch overwrite, or a full-sheet read. -/
inductive SheetOp where
  | addWorksheet (title rows cols : String)
  | updateCells (title rangeName : String) (values : List (List String))
  | addCols (title : String) (n : Nat)
  | batchUpdate (title rangeName : String) (values : List (List String))
  | getAllValues (title : String)
deriving DecidableEq

def isBatchUpdateOp : SheetOp → Bool
  | SheetOp.batchUpdate .. => true
  | _ => false

def isAddColsOp : SheetOp → Bool
  | SheetOp.addCols .. => true
  | _ => false

/-- The remote spreadsheet state a `write_to_sheets_with_backup` run finds:
whether the two worksheets exist, what `sheet.get_all_values()` returns for
the main sheet, the log sheet's current column count, and how far the
backup `try` block gets before an exception (`none`: no exception;
`some k`: it raises after its first `k` operations). -/
structure SheetEnv where
  mainExists : Bool
  logExists : Bool
  mainValues : List (List String)
  logColCount : Nat
  backupFailAt : Option Nat
deriving DecidableEq

/-- gspread's column label: `divmod(col - 1, 26)` loop producing base-26
letters.  The first argument is fuel bounding the recursion depth (the
quotient chain shrinks to 0 within `col` steps), keeping the definition
structural. -/
def col_letters_aux : Nat → Nat → List Char
  | 0, _ => []
  | _, 0 => []
  | fuel + 1, n + 1 => col_letters_aux fuel (n / 26) ++ [Char.ofNat (65 + n % 26)]

/-- `gspread.utils.rowcol_to_a1`: column letters followed by the row
number. -/
def rowcol_to_a1 (row col : Nat) : String :=
  ⟨col_letters_aux col col⟩ ++ toString row

/-- Model of `write_to_sheets_with_backup` (lines 58-104) as the ordered
trace of sheet operations: get/create the two worksheets (a fresh log sheet
gets the address header row), the backup `try` block (full-sheet read, then
— when the main sheet has a data row — copying its outgoing timestamp
column to a fresh rightmost log column; an exception anywhere in the block
is swallowed, cutting the block's trace short), the main-table overwrite
(header plus one row per address), and finally this run's timestamp column
appended at the log sheet's new right edge.  The `if log_sheet.col_count <
col_count + 1` guards compare the just-read count with itself plus one, so
each append grows the sheet by exactly one column. -/
def sheets_main_setup (env : SheetEnv) (sheet_name : String) : List SheetOp :=
  if env.mainExists then [] else [SheetOp.addWorksheet sheet_name "300" "2"]

/-- Log-sheet lookup/creation (lines 70-75): a fresh log sheet gets the
address header row written at `A1`. -/
def sheets_log_setup (env : SheetEnv) (log_sheet_name : String)
    (data : List (String × String)) : List SheetOp :=
  if env.logExists then [] else
    [SheetOp.addWorksheet log_sheet_name "300" "2",
     SheetOp.updateCells log_sheet_name "A1" [["IP Address"] ++ data.map Prod.fst]]

/-- `sheet.get_all_values()` (line 79): the empty sheet reads back empty
when the main sheet was only just created. -/
def sheets_current_vals (env : SheetEnv) : List (List String) :=
  if env.mainExists then env.mainValues else []

/-- `log_sheet.col_count` before any column growth: an `add_worksheet`
with `cols="2"` starts at 2. -/
def sheets_log_cc (env : SheetEnv) : Nat :=
  if env.logExists then env.logColCount else 2

/-- `backup_col = [now] + prev_col` (lines 81-82): the backup timestamp on
top of the outgoing main-sheet `B` column (rows 2..). -/
def sheets_backup_col (now1 : String) (env : SheetEnv) : List String :=
  now1 :: ((sheets_current_vals env).drop 1).map
    (fun row => if 1 < row.length then row.getD 1 "" else "")

/-- The backup `try` block (lines 78-89) when no exception interrupts it:
the full-sheet read, then — when the main sheet holds at least a header and
one data row — one new log column and the backup column written into it.
The `if log_sheet.col_count < col_count + 1` guard compares the just-read
count against itself plus one, so it always adds exactly one column. -/
def sheets_backup_full (now1 : String) (env : SheetEnv)
    (sheet_name log_sheet_name : String) : List SheetOp :=
  SheetOp.getAllValues sheet_name ::
    (if 2 ≤ (sheets_current_vals env).length then
      [SheetOp.addCols log_sheet_name 1,
       SheetOp.updateCells log_sheet_name
         (rowcol_to_a1 1 (sheets_log_cc env + 1) ++ ":" ++
           rowcol_to_a1 (sheets_backup_col now1 env).length (sheets_log_cc env + 1))
         ((sheets_backup_col now1 env).map (fun v => [v]))]
     else [])

/-- The backup block's executed prefix: `except Exception: pass` (lines
88-89) swallows an exception raised after `k` of its operations. -/
def sheets_backup_done (now1 : String) (env : SheetEnv)
    (sheet_name log_sheet_name : String) : List SheetOp :=
  match env.backupFailAt with
  | none => sheets_backup_full now1 env sheet_name log_sheet_name
  | some k => (sheets_backup_full now1 env sheet_name log_sheet_name).take k

/-- Model of `write_to_sheets_with_backup` (lines 58-104) as the ordered
trace of sheet operations: get/create the two worksheets, the swallowed
backup block, the main-table batch overwrite (header plus one row per
address, range `A1:B{len}`), and finally this run's timestamp column
appended at the log sheet's right edge (whose column count reflects any
column the backup block managed to add). -/
def write_to_sheets_with_backup (now1 now2 : String)
    (data : List (String × String)) (sheet_name log_sheet_name : String)
    (env : SheetEnv) : List SheetOp :=
  sheets_main_setup env sheet_name
    ++ sheets_log_setup env log_sheet_name data
    ++ sheets_backup_done now1 env sheet_name log_sheet_name
    ++ [SheetOp.batchUpdate sheet_name ("A1:B" ++ toString (data.length + 1))
         ([["IP Address", "Timestamp"]] ++ data.map (fun p => [p.1, p.2]))]
    ++ [SheetOp.addCols log_sheet_name 1,
        SheetOp.updateCells log_sheet_name
          (rowcol_to_a1 1
              (sheets_log_cc env
                + (sheets_backup_done now1 env sheet_name log_sheet_name).countP
                    isAddColsOp + 1)
            ++ ":" ++
            rowcol_to_a1 (now2 :: data.map Prod.snd).length
              (sheets_log_cc env
                + (sheets_backup_done now1 env sheet_name log_sheet_name).countP
                    isAddColsOp + 1))
          ((now2 :: data.map Prod.snd).map (fun v => [v]))]

/-- `prefix.replace(".", "_")` (line 307). -/
def sheet_name_of (pfx : String) : String :=
  ⟨pfx.data.map (fun c => if c = '.' then '_' else c)⟩

/-- Model of the `__main__` loop (lines 297-313): for each subnet prefix in
order, probe the subnet, write the tabular sink, then reconcile Notion.
Per-prefix remote state and outcomes come from the environment functions
(`resultsOf` the probe results, `envOf` the sheet state, `fetchOf` the
outcome of that prefix's `fetch_pages_map`, `now1Of`/`now2Of` the two
`datetime.now` reads inside the sheets writer). -/
def main_run (cfg : NotionConfig)
    (resultsOf : String → List (String × String))
    (envOf : String → SheetEnv)
    (fetchOf : String → Except Unit (String → Option PageRec))
    (now1Of now2Of : String → String)
    (pfxs : List String) :
    List (List SheetOp × List NotionCall) :=
  pfxs.map fun p =>
    (write_to_sheets_with_backup (now1Of p) (now2Of p) (resultsOf p)
       (sheet_name_of p) (sheet_name_of p ++ "_log") (envOf p),
     upsert_notion cfg (resultsOf p) (fetchOf p) (some p))

theorem create_log_record_filter_update (cfg : NotionConfig)
    (ip ts st : String) (np : Option String) :
    (create_log_record cfg ip ts st np).filter isUpdateCall = [] := by
  unfold create_log_record
  split
  · rfl
  · split
    · rfl
    · simp [isUpdateCall]

theorem create_log_record_filter_create (cfg : NotionConfig)
    (ip ts st : String) (np : Option String) :
    (create_log_record cfg ip ts st np).filter isCreateCall = [] := by
  unfold create_log_record
  split
  · rfl
  · split
    · rfl
    · simp [isCreateCall]

theorem upsert_step_no_write_of_stored (cfg : NotionConfig)
    (pageMap : String → Option PageRec) (netPfx : Option String)
    (p : String × String) (i : String)
    (hcfg : cfg.tsIsDate = true ∨ cfg.tsIsText = true)
    (hpm : pageMap p.1 = some ⟨i, stored_ts_after_write cfg p.2, status_of p.2⟩) :
    (upsert_step cfg pageMap netPfx p).filter isUpdateCall = []
    ∧ (upsert_step cfg pageMap netPfx p).filter isCreateCall = [] := by
  cases hd : cfg.tsIsDate with
  | true =>
    simp [upsert_step, hpm, hd, stored_ts_after_write, List.filter_append,
      create_log_record_filter_update, create_log_record_filter_create]
  | false =>
    have ht : cfg.tsIsText = true := by
      rcases hcfg with h | h
      · rw [hd] at h; exact absurd h (by simp)
      · exact h
    simp [upsert_step, hpm, hd, ht, stored_ts_after_write, List.filter_append,
      create_log_record_filter_update, create_log_record_filter_create]

/-- C1: with the baseline page map reflecting exactly the writes of a first
reconciliation run over the same probe data (for each probed address the
stored timestamp string and stored status equal the freshly derived ones),
a second `upsert_notion` run issues zero update calls — and zero create
calls — on every iteration, for any main-DB schema that carries a
`Timestamp` property (date or rich-text). -/
theorem upsert_second_run_is_noop (cfg : NotionConfig)
    (data : List (String × String)) (pageMap : String → Option PageRec)
    (idOf : String → String) (netPfx : Option String)
    (hcfg : cfg.tsIsDate = true ∨ cfg.tsIsText = true)
    (hmap : ∀ p ∈ data, pageMap p.1 =
      some ⟨idOf p.1, stored_ts_after_write cfg p.2, status_of p.2⟩) :
    (upsert_notion cfg data (Except.ok pageMap) netPfx).filter isUpdateCall = []
    ∧ (upsert_notion cfg data (Except.ok pageMap) netPfx).filter isCreateCall = [] := by
  induction data with
  | nil => simp [upsert_notion]
  | cons p rest ih =>
    have hp := hmap p (List.mem_cons_self p rest)
    have hstep := upsert_step_no_write_of_stored cfg pageMap netPfx p (idOf p.1) hcfg hp
    have hrest := ih (fun q hq => hmap q (List.mem_cons_of_mem p hq))
    simp only [upsert_notion, List.flatMap_cons, List.filter_append] at *
    exact ⟨by rw [hstep.1, hrest.1]; rfl, by rw [hstep.2, hrest.2]; rfl⟩

theorem upsert_second_run_is_noop_witness :
    (upsert_notion ⟨true, false, some "L", true, true, true, false, true⟩
        [("10.0.0.1", "2025-01-01 12:00:00"), ("10.0.0.2", "")]
        (Except.ok (fun ip =>
          if ip = "10.0.0.1" then
            some ⟨"p1", "2025-01-01T12:00:00+09:00", "接続"⟩
          else if ip = "10.0.0.2" then some ⟨"p2", "", "接続不可"⟩
          else none))
        (some "10.0.0.")).filter isUpdateCall = []
    ∧ (upsert_notion ⟨true, false, some "L", true, true, true, false, true⟩
        [("10.0.0.1", "2025-01-01 12:00:00"), ("10.0.0.2", "")]
        (Except.ok (fun ip =>
          if ip = "10.0.0.1" then
            some ⟨"p1", "2025-01-01T12:00:00+09:00", "接続"⟩
          else if ip = "10.0.0.2" then some ⟨"p2", "", "接続不可"⟩
          else none))
        (some "10.0.0.")).filter isCreateCall = [] :=
  upsert_second_run_is_noop ⟨true, false, some "L", true, true, true, false, true⟩
    [("10.0.0.1", "2025-01-01 12:00:00"), ("10.0.0.2", "")]
    (fun ip =>
      if ip = "10.0.0.1" then
        some ⟨"p1", "2025-01-01T12:00:00+09:00", "接続"⟩
      else if ip = "10.0.0.2" then some ⟨"p2", "", "接続不可"⟩
      else none)
    (fun ip => if ip = "10.0.0.1" then "p1" else "p2")
    (some "10.0.0.") (Or.inl rfl) (by decide)

theorem create_log_record_mem_not_update (cfg : NotionConfig)
    (ip ts st : String) (np : Option String) :
    ∀ c ∈ create_log_record cfg ip ts st np, isUpdateCall c = false := by
  unfold create_log_record
  split
  · simp
  · split
    · simp
    · simp [isUpdateCall]

theorem create_log_record_mem_not_create (cfg : NotionConfig)
    (ip ts st : String) (np : Option String) :
    ∀ c ∈ create_log_record cfg ip ts st np, isCreateCall c = false := by
  unfold create_log_record
  split
  · simp
  · split
    · simp
    · simp [isCreateCall]

/-- C2: when the baseline map has no record for the probed address and the
probe carries a non-empty timestamp, `upsert_notion` issues exactly one
create call for that address — status `"接続"` ("connected") with the probed
timestamp (ISO-converted for a date property, verbatim for rich-text) — and
no update call. -/
theorem upsert_new_address_single_create (cfg : NotionConfig)
    (ip ts : String) (pageMap : String → Option PageRec) (netPfx : Option String)
    (hcfg : cfg.tsIsDate = true ∨ cfg.tsIsText = true)
    (hts : ts ≠ "") (hmap : pageMap ip = none) :
    (upsert_notion cfg [(ip, ts)] (Except.ok pageMap) netPfx).filter isCreateCall
      = [NotionCall.create ip "接続"
          (if cfg.tsIsDate then TsProp.dateSome (jst_iso_from_str ts)
           else TsProp.textSome ts)]
    ∧ (upsert_notion cfg [(ip, ts)] (Except.ok pageMap) netPfx).filter isUpdateCall
      = [] := by
  cases hd : cfg.tsIsDate with
  | true =>
    simp [upsert_notion, upsert_step, hmap, hd, hts, status_of, isCreateCall,
      isUpdateCall, isCreateCall, List.filter_append,
      create_log_record_filter_update, create_log_record_filter_create,
      create_log_record_mem_not_update, create_log_record_mem_not_create]
  | false =>
    have ht : cfg.tsIsText = true := by
      rcases hcfg with h | h
      · rw [hd] at h; exact absurd h (by simp)
      · exact h
    simp [upsert_notion, upsert_step, hmap, hd, ht, hts, status_of, isCreateCall,
      isUpdateCall, isCreateCall, List.filter_append,
      create_log_record_filter_update, create_log_record_filter_create,
      create_log_record_mem_not_update, create_log_record_mem_not_create]

theorem upsert_new_address_single_create_witness :
    (upsert_notion ⟨true, false, some "L", true, true, true, false, true⟩
        [("10.0.0.7", "2025-01-01 12:00:00")]
        (Except.ok (fun _ => none)) (some "10.0.0.")).filter isCreateCall
      = [NotionCall.create "10.0.0.7" "接続"
          (if (⟨true, false, some "L", true, true, true, false, true⟩ :
              NotionConfig).tsIsDate then
            TsProp.dateSome (jst_iso_from_str "2025-01-01 12:00:00")
           else TsProp.textSome "2025-01-01 12:00:00")]
    ∧ (upsert_notion ⟨true, false, some "L", true, true, true, false, true⟩
        [("10.0.0.7", "2025-01-01 12:00:00")]
        (Except.ok (fun _ => none)) (some "10.0.0.")).filter isUpdateCall = [] :=
  upsert_new_address_single_create
    ⟨true, false, some "L", true, true, true, false, true⟩
    "10.0.0.7" "2025-01-01 12:00:00" (fun _ => none) (some "10.0.0.")
    (Or.inl rfl) (by decide) rfl

/-- C3: when the baseline map holds a record with status `"接続"`
("connected") for the address and the fresh probe of it has an empty
timestamp, `upsert_notion` issues exactly one update call for that record —
status `"接続不可"` ("unreachable") with the stored timestamp cleared
(`date: None` for a date property, an empty rich-text list otherwise) — and
no create call. -/
theorem upsert_status_flip_single_update (cfg : NotionConfig)
    (ip : String) (pm : PageRec) (pageMap : String → Option PageRec)
    (netPfx : Option String)
    (hcfg : cfg.tsIsDate = true ∨ cfg.tsIsText = true)
    (hmap : pageMap ip = some pm) (hstatus : pm.status = "接続") :
    (upsert_notion cfg [(ip, "")] (Except.ok pageMap) netPfx).filter isUpdateCall
      = [NotionCall.update pm.id "接続不可"
          (if cfg.tsIsDate then TsProp.dateNone else TsProp.textEmpty)]
    ∧ (upsert_notion cfg [(ip, "")] (Except.ok pageMap) netPfx).filter isCreateCall
      = [] := by
  cases hd : cfg.tsIsDate with
  | true =>
    simp [upsert_notion, upsert_step, hmap, hd, hstatus, status_of, isUpdateCall,
      isUpdateCall, isCreateCall, List.filter_append,
      create_log_record_filter_update, create_log_record_filter_create,
      create_log_record_mem_not_update, create_log_record_mem_not_create]
  | false =>
    have ht : cfg.tsIsText = true := by
      rcases hcfg with h | h
      · rw [hd] at h; exact absurd h (by simp)
      · exact h
    simp [upsert_notion, upsert_step, hmap, hd, ht, hstatus, status_of,
      isUpdateCall, isCreateCall, List.filter_append,
      create_log_record_filter_update, create_log_record_filter_create,
      create_log_record_mem_not_update, create_log_record_mem_not_create]

theorem upsert_status_flip_single_update_witness :
    (upsert_notion ⟨true, false, some "L", true, true, true, false, true⟩
        [("10.0.0.9", "")]
        (Except.ok (fun ip =>
          if ip = "10.0.0.9" then
            some ⟨"p9", "2025-01-01T11:00:00+09:00", "接続"⟩
          else none))
        (some "10.0.0.")).filter isUpdateCall
      = [NotionCall.update
          (PageRec.id ⟨"p9", "2025-01-01T11:00:00+09:00", "接続"⟩) "接続不可"
          (if (⟨true, false, some "L", true, true, true, false, true⟩ :
              NotionConfig).tsIsDate then TsProp.dateNone else TsProp.textEmpty)]
    ∧ (upsert_notion ⟨true, false, some "L", true, true, true, false, true⟩
        [("10.0.0.9", "")]
        (Except.ok (fun ip =>
          if ip = "10.0.0.9" then
            some ⟨"p9", "2025-01-01T11:00:00+09:00", "接続"⟩
          else none))
        (some "10.0.0.")).filter isCreateCall = [] :=
  upsert_status_flip_single_update
    ⟨true, false, some "L", true, true, true, false, true⟩
    "10.0.0.9" ⟨"p9", "2025-01-01T11:00:00+09:00", "接続"⟩
    (fun ip =>
      if ip = "10.0.0.9" then
        some ⟨"p9", "2025-01-01T11:00:00+09:00", "接続"⟩
      else none)
    (some "10.0.0.") (Or.inl rfl) (by decide) rfl

theorem create_log_record_countP_log (cfg : NotionConfig)
    (ip ts st : String) (np : Option String)
    (hlogs : optTruthy cfg.logsDbId = true) (htitle : cfg.logHasTitle = true) :
    (create_log_record cfg ip ts st np).countP isLogCall = 1 := by
  simp [create_log_record, hlogs, htitle, isLogCall]

theorem countP_log_update_list (b : Prop) [Decidable b]
    (pageId st : String) (tsp : TsProp) :
    (if b then [NotionCall.update pageId st tsp] else []).countP isLogCall = 0 := by
  split <;> simp [isLogCall]

theorem upsert_step_countP_log (cfg : NotionConfig)
    (pageMap : String → Option PageRec) (netPfx : Option String)
    (p : String × String)
    (hlogs : optTruthy cfg.logsDbId = true) (htitle : cfg.logHasTitle = true) :
    (upsert_step cfg pageMap netPfx p).countP isLogCall = 1 := by
  cases hpm : pageMap p.1 with
  | none =>
    simp [upsert_step, hpm, isLogCall,
      create_log_record_countP_log cfg p.1 p.2 (status_of p.2) netPfx hlogs htitle]
  | some pm =>
    simp only [upsert_step, hpm, List.countP_append]
    rw [create_log_record_countP_log cfg p.1 p.2 (status_of p.2) netPfx hlogs htitle,
      countP_log_update_list]

/-- C9: whenever the baseline fetch succeeds and the deployment has a log
database with a title property, `upsert_notion` attempts exactly one
log-record write per probed address — in the created, updated and unchanged
branches alike — so the number of log calls equals the number of probed
addresses. -/
theorem upsert_logs_every_address_once (cfg : NotionConfig)
    (data : List (String × String)) (pageMap : String → Option PageRec)
    (netPfx : Option String)
    (hlogs : optTruthy cfg.logsDbId = true) (htitle : cfg.logHasTitle = true) :
    (upsert_notion cfg data (Except.ok pageMap) netPfx).countP isLogCall
      = data.length := by
  induction data with
  | nil => simp [upsert_notion]
  | cons p rest ih =>
    simp only [upsert_notion, List.flatMap_cons, List.countP_append,
      List.length_cons] at *
    rw [upsert_step_countP_log cfg pageMap netPfx p hlogs htitle, ih]
    omega

theorem upsert_logs_every_address_once_witness :
    (upsert_notion ⟨true, false, some "L", true, true, true, false, true⟩
        [("10.0.0.1", "2025-01-01 12:00:00"), ("10.0.0.2", ""), ("10.0.0.3", "")]
        (Except.ok (fun ip =>
          if ip = "10.0.0.2" then some ⟨"p2", "", "接続不可"⟩
          else if ip = "10.0.0.3" then
            some ⟨"p3", "2025-01-01T11:00:00+09:00", "接続"⟩
          else none))
        (some "10.0.0.")).countP isLogCall
      = [("10.0.0.1", "2025-01-01 12:00:00"), ("10.0.0.2", ""),
         ("10.0.0.3", "")].length :=
  upsert_logs_every_address_once
    ⟨true, false, some "L", true, true, true, false, true⟩
    [("10.0.0.1", "2025-01-01 12:00:00"), ("10.0.0.2", ""), ("10.0.0.3", "")]
    (fun ip =>
      if ip = "10.0.0.2" then some ⟨"p2", "", "接続不可"⟩
      else if ip = "10.0.0.3" then
        some ⟨"p3", "2025-01-01T11:00:00+09:00", "接続"⟩
      else none)
    (some "10.0.0.") rfl rfl

theorem try_pass_ok (r : Except Unit Unit) : try_pass r = Except.ok () := by
  cases r <;> rfl

theorem run_calls_ok (oracle : Nat → Bool) (cs : List NotionCall) :
    ∀ k, run_calls oracle k cs = Except.ok (k + cs.length, cs) := by
  induction cs with
  | nil => intro k; simp [run_calls]
  | cons c cs ih =>
    intro k
    simp [run_calls, try_pass_ok, ih (k + 1)]
    omega

theorem upsert_loop_ok (cfg : NotionConfig) (oracle : Nat → Bool)
    (pageMap : String → Option PageRec) (netPfx : Option String)
    (data : List (String × String)) :
    ∀ k, upsert_loop cfg oracle pageMap netPfx k data
      = Except.ok (k + (data.flatMap (upsert_step cfg pageMap netPfx)).length,
          data.flatMap (upsert_step cfg pageMap netPfx)) := by
  induction data with
  | nil => intro k; simp [upsert_loop]
  | cons p rest ih =>
    intro k
    simp [upsert_loop, run_calls_ok, ih]
    omega

/-- C7 (amended): under the exception semantics, a transport failure on any
single per-record create, update or log call is caught at its call site and
silently swallowed — the run emits no console output for it: for every
failure oracle the reconciliation loop completes without aborting and
attempts exactly the calls of the pure model, so every remaining probed
address still gets its create/update decision and its log attempt, and one
address's failure leaves all other addresses' outcomes unchanged. -/
theorem transport_failure_does_not_abort_loop (cfg : NotionConfig)
    (oracle : Nat → Bool) (data : List (String × String))
    (pageMap : String → Option PageRec) (netPfx : Option String) :
    upsert_notion_run cfg oracle data (Except.ok pageMap) netPfx
      = Except.ok (upsert_notion cfg data (Except.ok pageMap) netPfx)
    ∧ upsert_notion_run_console cfg oracle data (Except.ok pageMap) netPfx = [] := by
  refine ⟨?_, rfl⟩
  simp [upsert_notion_run, upsert_loop_ok, upsert_notion]

/-- C7, the claim as stated fails on the code: in a run whose first
per-record call meets a transport failure (the oracle fails call 0), the
failure is caught but nothing is logged — the loop's `except` handlers are
bare `pass`, so the run's console output is empty, against the claim's
"caught and logged". -/
theorem transport_failure_not_logged_counterexample :
    call_outcome (fun k => k == 0) 0 = Except.error ()
    ∧ upsert_notion_run_console
        ⟨true, false, some "L", true, true, true, false, true⟩
        (fun k => k == 0) [("10.0.0.1", "2025-01-01 12:00:00")]
        (Except.ok (fun _ => none)) (some "10.0.0.") = [] :=
  ⟨rfl, rfl⟩

theorem key_le_trans (a b c : String × String)
    (hab : key_le a b) (hbc : key_le b c) : key_le a c := by
  simp only [key_le, decide_eq_true_eq] at *
  omega

theorem key_le_total (a b : String × String) : key_le a b || key_le b a := by
  simp only [key_le]
  rcases Nat.le_total (oct_key a) (oct_key b) with h | h <;> simp [h]

theorem mergeSort_key_le_pairwise (l : List (String × String)) :
    (l.mergeSort key_le).Pairwise (fun a b => oct_key a ≤ oct_key b) := by
  have h := List.sorted_mergeSort key_le_trans key_le_total l
  exact h.imp (fun hab => by simpa [key_le] using hab)

/-- C4: for every subnet prefix whose generated addresses have pairwise
distinct trailing octets (any dotted prefix does) and every completion
order of the probes, `ping_subnet` returns a list of length exactly 254
with exactly one result per address of the host range 1-254, regardless of
which probes succeed. -/
theorem ping_subnet_one_result_per_address (probe : String → Bool)
    (ts_now pfx : String) (order : List String)
    (horder : List.Perm order (ips_of pfx))
    (hkeys : ((ips_of pfx).map lastOctet).Nodup) :
    (ping_subnet probe ts_now order).length = 254
    ∧ ∀ i ∈ List.range' 1 254,
        (ping_subnet probe ts_now order).countP
          (fun r => r.1 == pfx ++ toString i) = 1 := by
  have hperm : List.Perm (ping_subnet probe ts_now order)
      ((ips_of pfx).map (probe_entry probe ts_now)) :=
    (List.mergeSort_perm _ _).trans (horder.map _)
  constructor
  · rw [hperm.length_eq, List.length_map, ips_of, List.length_map,
      List.length_range']
  · intro i hi
    rw [hperm.countP_eq, List.countP_map]
    have hnodup : (ips_of pfx).Nodup := List.Nodup.of_map lastOctet hkeys
    have hmem : pfx ++ toString i ∈ ips_of pfx :=
      List.mem_map.mpr ⟨i, hi, rfl⟩
    exact List.count_eq_one_of_mem hnodup hmem

/-- C5: for every completion order of the probes (any permutation of the
generated addresses), the list `ping_subnet` returns is ascending in the
trailing address octet and is exactly the list obtained from the canonical
address order — the output is determined by the address set alone,
independent of probe completion order. -/
theorem ping_subnet_sorted_completion_independent (probe : String → Bool)
    (ts_now pfx : String) (order : List String)
    (horder : List.Perm order (ips_of pfx))
    (hkeys : ((ips_of pfx).map lastOctet).Nodup) :
    (ping_subnet probe ts_now order).Pairwise (fun a b => oct_key a ≤ oct_key b)
    ∧ ping_subnet probe ts_now order = ping_subnet probe ts_now (ips_of pfx) := by
  refine ⟨mergeSort_key_le_pairwise _, ?_⟩
  have hperm1 : List.Perm (ping_subnet probe ts_now order)
      ((ips_of pfx).map (probe_entry probe ts_now)) :=
    (List.mergeSort_perm _ _).trans (horder.map _)
  have hperm2 : List.Perm (ping_subnet probe ts_now (ips_of pfx))
      ((ips_of pfx).map (probe_entry probe ts_now)) :=
    List.mergeSort_perm _ _
  have hp : List.Perm (ping_subnet probe ts_now order)
      (ping_subnet probe ts_now (ips_of pfx)) := hperm1.trans hperm2.symm
  have hkeys' : (((ips_of pfx).map (probe_entry probe ts_now)).map oct_key).Nodup := by
    have heq : ((ips_of pfx).map (probe_entry probe ts_now)).map oct_key
        = (ips_of pfx).map lastOctet := by
      rw [List.map_map]; rfl
    rw [heq]; exact hkeys
  have hstrict : ∀ l : List (String × String),
      l.Pairwise (fun a b => oct_key a ≤ oct_key b) → (l.map oct_key).Nodup →
      l.Pairwise (fun a b => oct_key a < oct_key b) := by
    intro l hle hnd
    have hne : l.Pairwise (fun a b => oct_key a ≠ oct_key b) :=
      List.pairwise_map.mp hnd
    exact (hle.and hne).imp (fun h => lt_of_le_of_ne h.1 h.2)
  have hs1 := hstrict _ (mergeSort_key_le_pairwise (order.map (probe_entry probe ts_now)))
    (((hperm1.map oct_key).nodup_iff).mpr hkeys')
  have hs2 := hstrict _ (mergeSort_key_le_pairwise ((ips_of pfx).map (probe_entry probe ts_now)))
    (((hperm2.map oct_key).nodup_iff).mpr hkeys')
  haveI : IsAntisymm (String × String) (fun a b => oct_key a < oct_key b) :=
    ⟨fun a b h1 h2 => absurd h1 (Nat.lt_asymm h2)⟩
  exact List.eq_of_perm_of_sorted hp hs1 hs2

/-- C10: every entry of a `ping_subnet` result carries the single run
timestamp captured before any probe was issued when its probe succeeded and
the empty string when it failed; since the run timestamp is a non-empty
`strftime` string, an entry's timestamp is non-empty exactly when its probe
succeeded. -/
theorem ping_timestamps_single_capture (probe : String → Bool)
    (ts_now : String) (order : List String) (hts : ts_now ≠ "") :
    ∀ r ∈ ping_subnet probe ts_now order,
      r.2 = (if probe r.1 then ts_now else "")
      ∧ (r.2 ≠ "" ↔ probe r.1 = true) := by
  intro r hr
  rw [ping_subnet, List.mem_mergeSort] at hr
  obtain ⟨ip, _, rfl⟩ := List.mem_map.mp hr
  refine ⟨rfl, ?_⟩
  cases hp : probe ip <;> simp [probe_entry, hp, hts]

set_option maxRecDepth 4000

theorem ping_subnet_one_result_per_address_witness :
    (ping_subnet (fun _ => true) "2025-01-01 12:00:00"
        ((ips_of "10.0.0.").reverse)).length = 254
    ∧ (ping_subnet (fun _ => true) "2025-01-01 12:00:00"
        ((ips_of "10.0.0.").reverse)).countP
        (fun r => r.1 == "10.0.0." ++ toString 37) = 1 := by
  have h := ping_subnet_one_result_per_address (fun _ => true)
    "2025-01-01 12:00:00" "10.0.0." ((ips_of "10.0.0.").reverse)
    (List.reverse_perm _)
    (by
      have hk : (ips_of "10.0.0.").map lastOctet = List.range' 1 254 := by decide
      rw [hk]; exact List.nodup_range' 1 254)
  exact ⟨h.1, h.2 37 (by decide)⟩

theorem ping_subnet_sorted_completion_independent_witness :
    (ping_subnet (fun ip => ip == "10.0.0.5") "2025-01-01 12:00:00"
        ((ips_of "10.0.0.").reverse)).Pairwise (fun a b => oct_key a ≤ oct_key b)
    ∧ ping_subnet (fun ip => ip == "10.0.0.5") "2025-01-01 12:00:00"
        ((ips_of "10.0.0.").reverse)
      = ping_subnet (fun ip => ip == "10.0.0.5") "2025-01-01 12:00:00"
        (ips_of "10.0.0.") :=
  ping_subnet_sorted_completion_independent (fun ip => ip == "10.0.0.5")
    "2025-01-01 12:00:00" "10.0.0." ((ips_of "10.0.0.").reverse)
    (List.reverse_perm _)
    (by
      have hk : (ips_of "10.0.0.").map lastOctet = List.range' 1 254 := by decide
      rw [hk]; exact List.nodup_range' 1 254)

theorem ping_timestamps_single_capture_witness :
    ("10.0.0.1", "2025-01-01 12:00:00").2
      = (if (fun ip => ip == "10.0.0.1") ("10.0.0.1", "2025-01-01 12:00:00").1
          then "2025-01-01 12:00:00" else "")
    ∧ (("10.0.0.1", "2025-01-01 12:00:00").2 ≠ ""
        ↔ (fun ip => ip == "10.0.0.1") ("10.0.0.1", "2025-01-01 12:00:00").1
            = true) :=
  ping_timestamps_single_capture (fun ip => ip == "10.0.0.1")
    "2025-01-01 12:00:00" ["10.0.0.2", "10.0.0.1"] (by decide)
    ("10.0.0.1", "2025-01-01 12:00:00")
    (by rw [ping_subnet]; exact List.mem_mergeSort.mpr (by decide))

theorem sheets_main_setup_not_batch (env : SheetEnv) (s : String) :
    ∀ op ∈ sheets_main_setup env s, isBatchUpdateOp op = false := by
  unfold sheets_main_setup
  split <;> simp [isBatchUpdateOp]

theorem sheets_log_setup_not_batch (env : SheetEnv) (l : String)
    (data : List (String × String)) :
    ∀ op ∈ sheets_log_setup env l data, isBatchUpdateOp op = false := by
  unfold sheets_log_setup
  split <;> simp [isBatchUpdateOp]

theorem sheets_backup_full_not_batch (now1 : String) (env : SheetEnv)
    (s l : String) :
    ∀ op ∈ sheets_backup_full now1 env s l, isBatchUpdateOp op = false := by
  unfold sheets_backup_full
  split <;> simp [isBatchUpdateOp]

theorem sheets_backup_done_not_batch (now1 : String) (env : SheetEnv)
    (s l : String) :
    ∀ op ∈ sheets_backup_done now1 env s l, isBatchUpdateOp op = false := by
  intro op hop
  apply sheets_backup_full_not_batch now1 env s l
  unfold sheets_backup_done at hop
  cases h : env.backupFailAt with
  | none => rw [h] at hop; exact hop
  | some k => rw [h] at hop; exact List.take_subset k _ hop

/-- C8: in the tabular sink, the primary-table overwrite (header row plus
one `[address, timestamp]` row per probed address, in probe order, over
range `A1:B{len}`) is issued exactly once in every run, regardless of how
far the backup block got before an exception; every operation preceding it
is worksheet setup or backup-block work, and when the backup block runs to
completion on a populated main sheet, its copy of the outgoing column into
the log sheet sits strictly before the overwrite. -/
theorem sheets_backup_before_primary_overwrite (now1 now2 : String)
    (data : List (String × String)) (sheet_name log_sheet_name : String)
    (env : SheetEnv) :
    ∃ pre post,
      write_to_sheets_with_backup now1 now2 data sheet_name log_sheet_name env
        = pre ++ SheetOp.batchUpdate sheet_name ("A1:B" ++ toString (data.length + 1))
            ([["IP Address", "Timestamp"]] ++ data.map (fun p => [p.1, p.2])) :: post
      ∧ (∀ op ∈ pre, isBatchUpdateOp op = false)
      ∧ (∀ op ∈ post, isBatchUpdateOp op = false)
      ∧ (env.backupFailAt = none → 2 ≤ (sheets_current_vals env).length →
          SheetOp.updateCells log_sheet_name
            (rowcol_to_a1 1 (sheets_log_cc env + 1) ++ ":" ++
              rowcol_to_a1 (sheets_backup_col now1 env).length (sheets_log_cc env + 1))
            ((sheets_backup_col now1 env).map (fun v => [v])) ∈ pre) := by
  refine ⟨sheets_main_setup env sheet_name
      ++ sheets_log_setup env log_sheet_name data
      ++ sheets_backup_done now1 env sheet_name log_sheet_name,
    [SheetOp.addCols log_sheet_name 1,
     SheetOp.updateCells log_sheet_name
       (rowcol_to_a1 1
           (sheets_log_cc env
             + (sheets_backup_done now1 env sheet_name log_sheet_name).countP
                 isAddColsOp + 1)
         ++ ":" ++
         rowcol_to_a1 (now2 :: data.map Prod.snd).length
           (sheets_log_cc env
             + (sheets_backup_done now1 env sheet_name log_sheet_name).countP
                 isAddColsOp + 1))
       ((now2 :: data.map Prod.snd).map (fun v => [v]))], ?_, ?_, ?_, ?_⟩
  · simp [write_to_sheets_with_backup, List.append_assoc]
  · intro op hop
    simp only [List.mem_append] at hop
    rcases hop with (h | h) | h
    · exact sheets_main_setup_not_batch env sheet_name op h
    · exact sheets_log_setup_not_batch env log_sheet_name data op h
    · exact sheets_backup_done_not_batch now1 env sheet_name log_sheet_name op h
  · intro op hop
    simp only [List.mem_cons, List.not_mem_nil, or_false] at hop
    rcases hop with rfl | rfl <;> rfl
  · intro h1 h2
    have hmem : SheetOp.updateCells log_sheet_name
        (rowcol_to_a1 1 (sheets_log_cc env + 1) ++ ":" ++
          rowcol_to_a1 (sheets_backup_col now1 env).length (sheets_log_cc env + 1))
        ((sheets_backup_col now1 env).map (fun v => [v]))
        ∈ sheets_backup_done now1 env sheet_name log_sheet_name := by
      simp [sheets_backup_done, h1, sheets_backup_full, h2]
    exact List.mem_append_right _ hmem

/-- C6: when `fetch_pages_map` fails for a subnet, that subnet's
reconciliation is aborted having issued no create, update or log call, while
the run's per-prefix output is otherwise unchanged: each prefix's tabular
sink write is exactly what it always is, and every other prefix's Notion
sync is untouched. -/
theorem fetch_failure_aborts_only_subnet_sync (cfg : NotionConfig)
    (resultsOf : String → List (String × String)) (envOf : String → SheetEnv)
    (fetchOf : String → Except Unit (String → Option PageRec))
    (now1Of now2Of : String → String) (pfxs : List String) (p : String)
    (hfail : fetchOf p = Except.error ()) :
    upsert_notion cfg (resultsOf p) (fetchOf p) (some p) = []
    ∧ main_run cfg resultsOf envOf fetchOf now1Of now2Of pfxs
      = pfxs.map (fun q =>
          (write_to_sheets_with_backup (now1Of q) (now2Of q) (resultsOf q)
             (sheet_name_of q) (sheet_name_of q ++ "_log") (envOf q),
           if q = p then [] else upsert_notion cfg (resultsOf q) (fetchOf q) (some q))) := by
  constructor
  · rw [hfail]; rfl
  · unfold main_run
    apply List.map_congr_left
    intro q _
    by_cases hq : q = p
    · subst hq
      simp [hfail, upsert_notion]
    · simp [hq]

theorem fetch_failure_aborts_only_subnet_sync_witness :
    upsert_notion ⟨true, false, some "L", true, true, true, false, true⟩ []
      (if ("10.0.0." : String) = "10.0.0." then Except.error ()
       else Except.ok (fun _ => (none : Option PageRec)))
      (some "10.0.0.") = []
    ∧ main_run ⟨true, false, some "L", true, true, true, false, true⟩
        (fun _ => []) (fun _ => ⟨false, false, [], 2, none⟩)
        (fun q => if q = "10.0.0." then Except.error ()
          else Except.ok (fun _ => (none : Option PageRec)))
        (fun _ => "n1") (fun _ => "n2") ["10.0.0.", "192.168.10."]
      = ["10.0.0.", "192.168.10."].map (fun q =>
          (write_to_sheets_with_backup "n1" "n2" []
             (sheet_name_of q) (sheet_name_of q ++ "_log") ⟨false, false, [], 2, none⟩,
           if q = "10.0.0." then []
           else upsert_notion ⟨true, false, some "L", true, true, true, false, true⟩
             []
             (if q = "10.0.0." then Except.error ()
              else Except.ok (fun _ => (none : Option PageRec)))
             (some q))) :=
  fetch_failure_aborts_only_subnet_sync
    ⟨true, false, some "L", true, true, true, false, true⟩
    (fun _ => []) (fun _ => ⟨false, false, [], 2, none⟩)
    (fun q => if q = "10.0.0." then Except.error ()
      else Except.ok (fun _ => (none : Option PageRec)))
    (fun _ => "n1") (fun _ => "n2") ["10.0.0.", "192.168.10."] "10.0.0."
    (by simp)
